import Mathlib

set_option maxHeartbeats 1000000

/-! Shallow embedding of the HabitTracker dashboard, streak and statistics
core (src/services/habit_service.py, src/services/log_service.py,
src/services/dashboard_service.py, src/routes/admin.py).

Calendar dates are modelled as integer day ordinals (the
`datetime.date.toordinal` convention: day 1 = 0001-01-01), so `d + 1` is the
next calendar day and the ISO `YYYY-MM-DD` string comparisons performed by the
source coincide with integer comparison of ordinals.  SQLite REAL values are
modelled as rationals, booleans as `Bool`, NULLable columns as `Option`.
Stores are modelled as lists of rows; SQL filters become `List.filter`,
`ORDER BY` becomes `List.insertionSort`, aggregate counts become
`List.countP`. -/

/-- Habit row of the `habits` table, as selected by the queries of
src/services/habit_service.py.  `created_at` is the date part of the creation
timestamp, as a day ordinal. -/
structure Habit where
  id : Nat
  name : String
  is_active : Bool
  is_public : Bool
  order_index : Int
  tracks_value : Bool
  value_unit : Option String
  value_aggregation_type : String
  created_at : Int
  deriving DecidableEq

/-- Log row of the `logs` table: one per (habit_id, date); `status` is the
completion boolean and `value` the optional numeric value (REAL, nullable). -/
structure LogRow where
  habit_id : Nat
  date : Int
  status : Bool
  value : Option ℚ
  deriving DecidableEq

/-- Ordering `order_index ASC, created_at ASC` used by the habit list queries
of src/services/habit_service.py. -/
def habitOrder (a b : Habit) : Prop :=
  a.order_index < b.order_index ∨
    (a.order_index = b.order_index ∧ a.created_at ≤ b.created_at)

instance : DecidableRel habitOrder := fun a b => by
  unfold habitOrder
  infer_instance

/-- Embeds `get_active_habits` (src/services/habit_service.py, lines 36-64):
habits with `is_active = 1`, restricted to `is_public = 1` unless
`include_private` is set, ordered by `order_index ASC, created_at ASC`. -/
def get_active_habits (habits : List Habit) (include_private : Bool) : List Habit :=
  if include_private then
    List.insertionSort habitOrder (habits.filter (fun h => h.is_active))
  else
    List.insertionSort habitOrder (habits.filter (fun h => h.is_active && h.is_public))

/-- Rounding of Python's `round`: to the nearest integer, halves to even. -/
def roundHalfEven (x : ℚ) : ℤ :=
  let f := ⌊x⌋
  let r := x - (f : ℚ)
  if r < 1 / 2 then f
  else if 1 / 2 < r then f + 1
  else if f % 2 = 0 then f else f + 1

/-- Python's `round(x, 1)`: round to one decimal place. -/
def round1 (x : ℚ) : ℚ := (roundHalfEven (x * 10) : ℚ) / 10

/-- Result shape of `get_habit_streak` (src/services/log_service.py). -/
structure StreakInfo where
  current_streak : Nat
  last_completed_date : Option Int
  deriving DecidableEq

/-- Inner phase of the `get_habit_streak` loop once the streak is anchored
(src/services/log_service.py, lines 205-212): a date counts only when it
equals the expected date, one day before the previously accepted date; the
first gap breaks the loop. -/
def consecRun : Int → List Int → Nat
  | _, [] => 0
  | expected, d :: ds => if d = expected then 1 + consecRun (d - 1) ds else 0

/-- Main loop of `get_habit_streak` (src/services/log_service.py, lines
178-213) over the completed dates in descending order: future-dated entries
are skipped (`continue`); the first remaining date anchors a streak of 1 only
when it is `today` or `today - 1`, else the loop breaks with streak 0; then
the consecutive run is counted. -/
def streakLoop (today : Int) : List Int → StreakInfo
  | [] => { current_streak := 0, last_completed_date := none }
  | d :: ds =>
    if today < d then streakLoop today ds
    else if d = today ∨ d = today - 1 then
      { current_streak := 1 + consecRun (d - 1) ds, last_completed_date := some d }
    else
      { current_streak := 0, last_completed_date := some d }

/-- Relation used to embed `ORDER BY date` on integer dates. -/
def intLe (a b : Int) : Prop := a ≤ b

instance : DecidableRel intLe := fun a b => by
  unfold intLe
  infer_instance

/-- Dates of a habit's completed logs, `ORDER BY date DESC` (the query of
`get_habit_streak`, src/services/log_service.py, lines 170-176). -/
def completedDatesDesc (logs : List LogRow) (habit_id : Nat) : List Int :=
  (List.insertionSort intLe
    ((logs.filter (fun l => l.habit_id == habit_id && l.status)).map (fun l => l.date))).reverse

/-- Embeds `get_habit_streak` (src/services/log_service.py, lines 153-217),
with the implicit `datetime.now().date()` made an explicit `today`
parameter. -/
def get_habit_streak (logs : List LogRow) (habit_id : Nat) (today : Int) : StreakInfo :=
  streakLoop today (completedDatesDesc logs habit_id)

/-- Current-streak rule in the specification's phrasing (spec section 4.1):
drop the dates strictly after `today`; the first remaining date anchors a
streak of 1 only when it equals `today` or `today - 1` (otherwise the streak
is 0); each later date extends the streak only when it is exactly one day
before the previously accepted date. -/
def streakSpec (dates : List Int) (today : Int) : StreakInfo :=
  match dates.filter (fun d => decide (d ≤ today)) with
  | [] => { current_streak := 0, last_completed_date := none }
  | d :: ds =>
    if d = today ∨ d = today - 1 then
      { current_streak := 1 + consecRun (d - 1) ds, last_completed_date := some d }
    else
      { current_streak := 0, last_completed_date := some d }

/-- Result shape of `get_completion_stats`. -/
structure CompletionStats where
  total_days : Int
  completed_days : Nat
  completion_rate : ℚ
  deriving DecidableEq

/-- Embeds `get_completion_stats` (src/services/log_service.py, lines
246-288), with the implicit `datetime.now().date()` end of the window made an
explicit `end_date` parameter.  The completed count is the query over
`[end_date - (days - 1), end_date]` with `status = 1`; the rate is guarded by
`if days > 0 else 0` and rounded to one decimal. -/
def get_completion_stats (logs : List LogRow) (habit_id : Nat) (days : Int)
    (end_date : Int) : CompletionStats :=
  let start_date := end_date - (days - 1)
  let completed_days := logs.countP (fun l =>
    l.habit_id == habit_id && decide (start_date ≤ l.date) &&
      decide (l.date ≤ end_date) && l.status)
  let completion_rate : ℚ :=
    if 0 < days then ((completed_days : ℚ) / (days : ℚ)) * 100 else 0
  { total_days := days, completed_days := completed_days,
    completion_rate := round1 completion_rate }

/-- Dynamic value stored for one habit in the `habit_statuses` mapping given
to `save_day_logs`: either a plain status boolean, or the
`{'status': ..., 'value': ...}` dictionary built by the `save_tracking` route
(src/routes/admin.py, lines 110-121) when a non-null value is supplied. -/
inductive DayEntry where
  | statusOnly (status : Bool)
  | withValue (status : Bool) (value : ℚ)
  deriving DecidableEq

/-- Python truthiness of a `DayEntry` as applied by `1 if status else 0` in
`upsert_log`: a boolean is its own truth value; the status/value dictionary
is a non-empty dict, hence always truthy. -/
def DayEntry.truthy : DayEntry → Bool
  | .statusOnly b => b
  | .withValue _ _ => true

/-- Embeds `upsert_log` (src/services/log_service.py, lines 100-129):
`INSERT INTO logs (habit_id, date, status) VALUES (?, ?, ?) ON
CONFLICT(habit_id, date) DO UPDATE SET status = excluded.status`.  On
conflict only `status` is updated; a fresh insert leaves `value` NULL.  The
`status` argument is the dynamic Python value, reduced by truthiness. -/
def upsert_log (store : List LogRow) (habit_id : Nat) (date : Int)
    (status : DayEntry) : List LogRow :=
  let status_int := status.truthy
  if store.any (fun r => r.habit_id == habit_id && r.date == date) then
    store.map (fun r =>
      if r.habit_id == habit_id && r.date == date then
        { r with status := status_int }
      else r)
  else
    store ++ [{ habit_id := habit_id, date := date, status := status_int, value := none }]

/-- Embeds `save_day_logs` (src/services/log_service.py, lines 220-243): one
`upsert_log` per entry of the mapping, in order, returning the number of
entries processed together with the updated store. -/
def save_day_logs (store : List LogRow) (date : Int)
    (habit_statuses : List (Nat × DayEntry)) : Nat × List LogRow :=
  habit_statuses.foldl (fun acc kv => (acc.1 + 1, upsert_log acc.2 kv.1 date kv.2)) (0, store)

/-- Invariant of the `logs` table (spec section 3): at most one Log row per
(habit_id, date) composite key. -/
def NoDupKeys (store : List LogRow) : Prop :=
  (store.map (fun r => (r.habit_id, r.date))).Nodup

/-- Loop state of the longest-streak computation inside
`get_archived_habits_data` (src/services/dashboard_service.py, lines
613-639): the maximum seen, the running streak and the previous log's date. -/
structure LSState where
  longest : Nat
  current : Nat
  prev : Option Int
  deriving DecidableEq

/-- One iteration of the longest-streak loop: a completed log continues the
running streak only when its date is one day after the previous log record's
date (otherwise it restarts at 1); an incomplete log resets the running
streak to 0; either way the log's date becomes the new previous-date
anchor. -/
def lsStep (s : LSState) (log : LogRow) : LSState :=
  if log.status then
    let cur : Nat :=
      match s.prev with
      | none => 1
      | some p => if log.date = p + 1 then s.current + 1 else 1
    { longest := max s.longest cur, current := cur, prev := some log.date }
  else
    { longest := s.longest, current := 0, prev := some log.date }

/-- Embeds the longest-streak computation of `get_archived_habits_data` over
a habit's full log history in ascending date order
(src/services/dashboard_service.py, lines 613-639). -/
def longest_streak (logs : List LogRow) : Nat :=
  (logs.foldl lsStep { longest := 0, current := 0, prev := none }).longest

/-- Longest-streak rule in the specification's phrasing (spec section 4.1,
"longest streak over full history"): direct recursion returning the maximum
running streak seen, where a completed day extends the running streak only
when its date is exactly one day after the previous log record's date, a
`status=false` day resets the running streak to 0, and every log re-anchors
the previous date. -/
def longestStreakSpec : Option Int → Nat → List LogRow → Nat
  | _, _, [] => 0
  | prev, run, log :: rest =>
    if log.status then
      let run2 : Nat :=
        match prev with
        | none => 1
        | some p => if log.date = p + 1 then run + 1 else 1
      max run2 (longestStreakSpec (some log.date) run2 rest)
    else
      longestStreakSpec (some log.date) 0 rest

/-- Dynamic value of one keyword argument passed to `update_habit`. -/
inductive FieldVal where
  | str (v : String)
  | bool (v : Bool)
  | int (v : Int)
  | optStr (v : Option String)
  deriving DecidableEq

/-- Whitelist of updatable columns in `update_habit`
(src/services/habit_service.py, lines 138-146). -/
def allowed_fields : List String :=
  ["name", "is_active", "is_public", "order_index", "tracks_value",
   "value_unit", "value_aggregation_type"]

/-- Applies one whitelisted `SET column = value` clause to a habit row.  The
admin routes only ever supply a value of the column's type; a type-mismatched
pair leaves the row unchanged. -/
def applyField (h : Habit) (kv : String × FieldVal) : Habit :=
  match kv with
  | ("name", .str v) => { h with name := v }
  | ("is_active", .bool v) => { h with is_active := v }
  | ("is_public", .bool v) => { h with is_public := v }
  | ("order_index", .int v) => { h with order_index := v }
  | ("tracks_value", .bool v) => { h with tracks_value := v }
  | ("value_unit", .optStr v) => { h with value_unit := v }
  | ("value_aggregation_type", .str v) => { h with value_aggregation_type := v }
  | _ => h

/-- Embeds `update_habit` (src/services/habit_service.py, lines 123-167):
keyword arguments are filtered against the whitelist; with no whitelisted
field the function returns 0 without running any statement; otherwise the SET
clauses are applied to every row matching `id` and the affected row count is
returned. -/
def update_habit (store : List Habit) (habit_id : Nat)
    (kwargs : List (String × FieldVal)) : Nat × List Habit :=
  let updates := kwargs.filter (fun kv => allowed_fields.contains kv.1)
  if updates.isEmpty then (0, store)
  else
    (store.countP (fun h => h.id == habit_id),
     store.map (fun h => if h.id == habit_id then updates.foldl applyField h else h))

/-- Leap-year rule as written in the source
(src/services/dashboard_service.py, line 503). -/
def is_leap_year (year : Nat) : Bool :=
  (year % 4 == 0 && year % 100 != 0) || year % 400 == 0

/-- Number of days in a calendar year. -/
def numDaysInYear (year : Nat) : Nat := if is_leap_year year then 366 else 365

/-- Day ordinal of January 1 of `year` (proleptic Gregorian calendar, the
`datetime.date.toordinal` convention of the source's date handling). -/
def yearStartOrdinal (year : Nat) : Int :=
  ((365 * (year - 1) + (year - 1) / 4 - (year - 1) / 100 + (year - 1) / 400 + 1 : Nat) : Int)

/-- Day ordinal of December 31 of `year`: the `created_at <= 'year-12-31
23:59:59'` bound of the heatmap habit query, at date granularity. -/
def yearEndOrdinal (year : Nat) : Int :=
  yearStartOrdinal year + (numDaysInYear year : Int) - 1

/-- All dates of `year` in chronological order: the flattening of the
month-by-month day loop of `get_yearly_heatmap_data` (lines 413-422). -/
def yearDates (year : Nat) : List Int :=
  (List.range (numDaysInYear year)).map (fun i => yearStartOrdinal year + Int.ofNat i)

/-- MIN(date) over one habit's logs: the `GROUP BY habit_id` first-log query
of `get_yearly_heatmap_data` (src/services/dashboard_service.py, lines
379-388), read off for one habit id.  Deliberately no status and no date
filter. -/
def firstLogDate (logs : List LogRow) (habit_id : Nat) : Option Int :=
  ((logs.filter (fun l => l.habit_id == habit_id)).map (fun l => l.date)).min?

/-- Effective start date of a habit for the heatmap (lines 390-401): the
first log date when the habit has any log, otherwise the date part of its
`created_at` timestamp. -/
def effectiveStart (logs : List LogRow) (h : Habit) : Int :=
  match firstLogDate logs h.id with
  | some d => d
  | none => h.created_at

/-- Ordering `created_at ASC` of the heatmap habit query. -/
def habitCreatedLe (a b : Habit) : Prop := a.created_at ≤ b.created_at

instance : DecidableRel habitCreatedLe := fun a b => by
  unfold habitCreatedLe
  infer_instance

/-- Habits entering the yearly heatmap (query at lines 326-337): public
habits created on or before the end of the year, ordered by `created_at ASC`;
deliberately not filtered on `is_active`, so deleted habits keep their
history. -/
def heatmapHabits (habits : List Habit) (year : Nat) : List Habit :=
  List.insertionSort habitCreatedLe
    (habits.filter (fun h => h.is_public && decide (h.created_at ≤ yearEndOrdinal year)))

/-- Habit ids with a completed log on date `d`, among the given habit ids and
within the year: one entry of the `completed_by_date` mapping (lines
357-377), a set of ids. -/
def completedIdsOn (logs : List LogRow) (ids : List Nat) (year : Nat) (d : Int) : List Nat :=
  ((logs.filter (fun l =>
      ids.contains l.habit_id && l.status &&
        decide (yearStartOrdinal year ≤ l.date) && decide (l.date ≤ yearEndOrdinal year) &&
        l.date == d)).map (fun l => l.habit_id)).dedup

/-- Day cell of the yearly heatmap. -/
structure HeatmapDay where
  date : Int
  completion_percentage : ℚ
  completed_count : Nat
  total_count : Nat
  deriving DecidableEq

/-- Day computation of the heatmap (inner loop, lines 422-456):
`habits_on_date` are the habits whose effective start date is on or before
`d`; a day with no such habit renders 0 percent; otherwise the completed
count is the size of the intersection with the day's completed-id set and the
percentage is rounded to one decimal. -/
def heatmapDayData (habit_created_dates : List (Nat × Int)) (logs : List LogRow)
    (ids : List Nat) (year : Nat) (d : Int) : HeatmapDay :=
  let habits_on_date := (habit_created_dates.filter (fun p => decide (p.2 ≤ d))).map (fun p => p.1)
  let total_count := habits_on_date.length
  if total_count = 0 then
    { date := d, completion_percentage := 0, completed_count := 0, total_count := 0 }
  else
    let completed_count :=
      ((completedIdsOn logs ids year d).filter (fun i => habits_on_date.contains i)).length
    { date := d,
      completion_percentage := round1 (((completed_count : ℚ) / (total_count : ℚ)) * 100),
      completed_count := completed_count,
      total_count := total_count }

/-- Day loop of the heatmap (lines 413-469, with the month grouping
flattened): produces the chronological list of day cells together with the
`all_days_data` list, which accumulates exactly the days whose habit count is
positive. -/
def heatmapLoop (f : Int → HeatmapDay) : List Int → List HeatmapDay × List HeatmapDay
  | [] => ([], [])
  | d :: ds =>
    let day := f d
    let rest := heatmapLoop f ds
    (day :: rest.1, if 0 < day.total_count then day :: rest.2 else rest.2)

/-- Overall statistics block of the heatmap. -/
structure OverallStats where
  total_days_tracked : Nat
  average_completion : ℚ
  best_day : Option (Int × ℚ)
  worst_day : Option (Int × ℚ)
  deriving DecidableEq

/-- Python's `max(days, key=percentage)`: the first element with the maximal
key wins, later elements replace the accumulator only on strictly greater. -/
def bestDayFold (first : HeatmapDay) (rest : List HeatmapDay) : HeatmapDay :=
  rest.foldl (fun acc e =>
    if acc.completion_percentage < e.completion_percentage then e else acc) first

/-- Python's `min(days, key=percentage)`: the first element with the minimal
key wins. -/
def worstDayFold (first : HeatmapDay) (rest : List HeatmapDay) : HeatmapDay :=
  rest.foldl (fun acc e =>
    if e.completion_percentage < acc.completion_percentage then e else acc) first

/-- Overall statistics over the tracked days (lines 471-499): count, average
of the (already rounded) percentages rounded to one decimal, and the
first-occurrence best and worst days. -/
def overallStats (tracked : List HeatmapDay) : OverallStats :=
  match tracked with
  | [] =>
    { total_days_tracked := 0, average_completion := 0,
      best_day := none, worst_day := none }
  | first :: rest =>
    let n := (first :: rest).length
    let avg := ((first :: rest).map (fun e => e.completion_percentage)).sum / (n : ℚ)
    let best := bestDayFold first rest
    let worst := worstDayFold first rest
    { total_days_tracked := n,
      average_completion := round1 avg,
      best_day := some (best.date, best.completion_percentage),
      worst_day := some (worst.date, worst.completion_percentage) }

/-- Result of `get_yearly_heatmap_data`, with the 12-month presentational
grouping flattened into the chronological `days` list; `tracked` is the
internal `all_days_data` list feeding the overall statistics. -/
structure YearHeatmap where
  year : Nat
  is_leap_year : Bool
  days : List HeatmapDay
  tracked : List HeatmapDay
  overall_stats : OverallStats
  deriving DecidableEq

/-- Embeds `get_yearly_heatmap_data` (src/services/dashboard_service.py,
lines 263-506): with no qualifying public habit the empty structure is
returned; otherwise each habit gets an effective start date (first log date,
else creation date) and every day of the year is rendered. -/
def get_yearly_heatmap_data (habits : List Habit) (logs : List LogRow) (year : Nat) : YearHeatmap :=
  let qualifying := heatmapHabits habits year
  if qualifying.isEmpty then
    { year := year, is_leap_year := is_leap_year year, days := [], tracked := [],
      overall_stats :=
        { total_days_tracked := 0, average_completion := 0,
          best_day := none, worst_day := none } }
  else
    let ids := qualifying.map (fun h => h.id)
    let habit_created_dates := qualifying.map (fun h => (h.id, effectiveStart logs h))
    let p := heatmapLoop (heatmapDayData habit_created_dates logs ids year) (yearDates year)
    { year := year, is_leap_year := is_leap_year year, days := p.1, tracked := p.2,
      overall_stats := overallStats p.2 }

/-- Ordering `date ASC` on log rows. -/
def logDateLe (a b : LogRow) : Prop := a.date ≤ b.date

instance : DecidableRel logDateLe := fun a b => by
  unfold logDateLe
  infer_instance

/-- Per-habit entry of the public dashboard. -/
structure DashboardEntry where
  id : Nat
  name : String
  created_at : Int
  tracks_value : Bool
  value_unit : Option String
  value_aggregation_type : String
  current_streak : Nat
  completion_rate : ℚ
  completed_days : Nat
  total_days : Int
  logs : List (Int × Bool × Option ℚ)
  deriving DecidableEq

/-- Result of `get_public_dashboard_data`. -/
structure DashboardData where
  habits : List DashboardEntry
  date_range : Int × Int
  deriving DecidableEq

/-- Per-habit aggregation of `get_public_dashboard_data` (lines 58-119): the
habit's logs in the window ordered by date, its streak and its completion
statistics.  The value-statistics enrichment for `tracks_value` habits calls
`get_value_stats`, which src/services/log_service.py does not define; it only
adds extra fields to the entry and is not modelled. -/
def dashboardEntry (logs : List LogRow) (today : Int) (days : Int) (h : Habit) : DashboardEntry :=
  let start_date := today - (days - 1)
  let habit_logs := List.insertionSort logDateLe
    (logs.filter (fun l =>
      l.habit_id == h.id && decide (start_date ≤ l.date) && decide (l.date ≤ today)))
  let streak_info := get_habit_streak logs h.id today
  let stats := get_completion_stats logs h.id days today
  { id := h.id, name := h.name, created_at := h.created_at,
    tracks_value := h.tracks_value, value_unit := h.value_unit,
    value_aggregation_type := h.value_aggregation_type,
    current_streak := streak_info.current_streak,
    completion_rate := stats.completion_rate,
    completed_days := stats.completed_days,
    total_days := stats.total_days,
    logs := habit_logs.map (fun l => (l.date, l.status, l.value)) }

/-- Embeds `get_public_dashboard_data` (src/services/dashboard_service.py,
lines 10-121): only habits returned by
`get_active_habits(include_private=False)` enter the dashboard, each with its
windowed logs, streak and statistics. -/
def get_public_dashboard_data (habits : List Habit) (logs : List LogRow)
    (today : Int) (days : Int) : DashboardData :=
  let public_habits := get_active_habits habits false
  { habits := public_habits.map (dashboardEntry logs today days),
    date_range := (today - (days - 1), today) }

lemma roundHalfEven_intCast (n : ℤ) : roundHalfEven (n : ℚ) = n := by
  unfold roundHalfEven
  rw [Int.floor_intCast]
  norm_num

lemma round1_hundred : round1 100 = 100 := by
  unfold round1
  rw [show ((100 : ℚ) * 10) = ((1000 : ℤ) : ℚ) by norm_num, roundHalfEven_intCast]
  norm_num

lemma round1_zero : round1 0 = 0 := by
  unfold round1
  rw [show ((0 : ℚ) * 10) = ((0 : ℤ) : ℚ) by norm_num, roundHalfEven_intCast]
  norm_num

/-- C9 (counterexample to the claim as stated): `window_days = 0` does not
produce an error; `get_completion_stats` returns a normal statistics record
with completion rate 0. -/
theorem completion_stats_zero_window_no_error :
    get_completion_stats [] 1 0 100 =
      { total_days := 0, completed_days := 0, completion_rate := 0 } := by
  simp [get_completion_stats, round1_zero]

/-- C9 (amended): for every `window_days <= 0`, `get_completion_stats` returns
the normal record `{total_days := days, completed_days := 0,
completion_rate := 0}` — the `if days > 0 else 0` guard avoids the division
and no error of any kind is raised. -/
theorem completion_stats_nonpositive_window (logs : List LogRow) (habit_id : Nat)
    (days : Int) (end_date : Int) (h : days ≤ 0) :
    get_completion_stats logs habit_id days end_date =
      { total_days := days, completed_days := 0, completion_rate := 0 } := by
  simp only [get_completion_stats]
  have hc : logs.countP (fun l =>
      l.habit_id == habit_id && decide (end_date - (days - 1) ≤ l.date) &&
        decide (l.date ≤ end_date) && l.status) = 0 := by
    rw [List.countP_eq_zero]
    intro l _
    simp only [Bool.and_eq_true, decide_eq_true_eq, not_and]
    intro h1 _
    exfalso
    omega
  rw [hc]
  have hnp : ¬ (0 : Int) < days := not_lt.mpr h
  simp [hnp, round1_zero]

/-- Witness for C9's amended theorem at `days = 0`. -/
theorem completion_stats_nonpositive_window_witness :
    get_completion_stats [{ habit_id := 1, date := 100, status := true, value := none }] 1 0 100 =
      { total_days := 0, completed_days := 0, completion_rate := 0 } :=
  completion_stats_nonpositive_window _ 1 0 100 (by decide)

/-- C7: for every positive window, `get_completion_stats` reports
`total_days = window_days`, `completed_days` = the number of `status=true`
logs of the habit with date in `[end_date - window_days + 1, end_date]`, and
`completion_rate = completed_days / window_days * 100` rounded to one
decimal; a fully completed window rates exactly 100 and an empty one exactly
0. -/
theorem completion_stats_characterization (logs : List LogRow) (habit_id : Nat)
    (days : Int) (end_date : Int) (h : 0 < days) :
    (get_completion_stats logs habit_id days end_date).total_days = days ∧
    (get_completion_stats logs habit_id days end_date).completed_days =
      logs.countP (fun l => l.habit_id == habit_id &&
        decide (end_date - days + 1 ≤ l.date) && decide (l.date ≤ end_date) && l.status) ∧
    (get_completion_stats logs habit_id days end_date).completion_rate =
      round1 ((((get_completion_stats logs habit_id days end_date).completed_days : ℚ) /
        (days : ℚ)) * 100) ∧
    ((get_completion_stats logs habit_id days end_date).completed_days = days.toNat →
      (get_completion_stats logs habit_id days end_date).completion_rate = 100) ∧
    ((get_completion_stats logs habit_id days end_date).completed_days = 0 →
      (get_completion_stats logs habit_id days end_date).completion_rate = 0) := by
  have hwin : end_date - (days - 1) = end_date - days + 1 := by ring
  have hdm : ((days : ℚ)) ≠ 0 := by
    exact_mod_cast h.ne.symm
  refine ⟨rfl, ?_, ?_, ?_, ?_⟩
  · simp only [get_completion_stats, hwin]
  · simp only [get_completion_stats, h, if_pos]
  · intro hfull
    simp only [get_completion_stats] at hfull ⊢
    rw [hfull]
    rw [if_pos h]
    have hcast : ((days.toNat : ℚ)) = (days : ℚ) := by
      exact_mod_cast congrArg (fun z => ((z : ℤ) : ℚ)) (Int.toNat_of_nonneg h.le)
    rw [hcast, div_self hdm, one_mul]
    exact round1_hundred
  · intro hzero
    simp only [get_completion_stats] at hzero ⊢
    rw [hzero]
    rw [if_pos h]
    norm_num
    exact round1_zero

/-- Witness for C7 at a fully completed one-day window. -/
theorem completion_stats_characterization_witness :
    (get_completion_stats [{ habit_id := 1, date := 100, status := true, value := none }]
      1 1 100).completion_rate = 100 :=
  (completion_stats_characterization
      [{ habit_id := 1, date := 100, status := true, value := none }] 1 1 100
      (by decide)).2.2.2.1 (by decide)

/-- C10: `update_habit` applies only whitelisted keyword arguments — the
result is unchanged when the non-whitelisted pairs are removed first — and
when no whitelisted field is supplied it returns 0 and leaves every habit
record untouched. -/
theorem update_habit_whitelist (store : List Habit) (habit_id : Nat)
    (kwargs : List (String × FieldVal)) :
    update_habit store habit_id kwargs =
      update_habit store habit_id (kwargs.filter (fun kv => allowed_fields.contains kv.1)) ∧
    ((∀ kv ∈ kwargs, allowed_fields.contains kv.1 = false) →
      update_habit store habit_id kwargs = (0, store)) := by
  constructor
  · simp only [update_habit, List.filter_filter, Bool.and_self]
  · intro hnone
    have hnil : kwargs.filter (fun kv => allowed_fields.contains kv.1) = [] := by
      rw [List.filter_eq_nil_iff]
      intro kv hkv
      rw [hnone kv hkv]
      simp
    simp only [update_habit, hnil, List.isEmpty_nil, if_pos]

/-- Witness for C10: an unknown field name is ignored and the store is
returned unchanged with affected count 0. -/
theorem update_habit_whitelist_witness :
    update_habit [⟨1, "run", true, true, 0, false, none, "absolute", 700000⟩] 1
      [("bogus", FieldVal.str "x")] =
      (0, [⟨1, "run", true, true, 0, false, none, "absolute", 700000⟩]) :=
  (update_habit_whitelist _ 1 _).2 (by decide)

/-- C4 (evaluation at the failing input): a `{'status': False, 'value': 10}`
entry passed through `save_day_logs` is stored with `status = true` (the
non-empty dictionary is truthy) and its value is discarded — the inserted row
carries no value at all. -/
theorem save_day_logs_drops_value :
    save_day_logs [] 100 [(1, DayEntry.withValue false 10)] =
      (1, [{ habit_id := 1, date := 100, status := true, value := none }]) := by
  decide

instance : DecidablePred NoDupKeys := fun s => by
  unfold NoDupKeys
  infer_instance

lemma upsert_log_keys_conflict (s : List LogRow) (habit_id : Nat) (date : Int)
    (e : DayEntry)
    (hex : s.any (fun r => r.habit_id == habit_id && r.date == date) = true) :
    (upsert_log s habit_id date e).map (fun r => (r.habit_id, r.date)) =
      s.map (fun r => (r.habit_id, r.date)) := by
  unfold upsert_log
  rw [if_pos hex]
  rw [List.map_map]
  apply List.map_congr_left
  intro r _
  simp only [Function.comp_apply]
  split <;> rfl

lemma upsert_log_preserves_keys (s : List LogRow) (habit_id : Nat) (date : Int)
    (e : DayEntry) (h : NoDupKeys s) : NoDupKeys (upsert_log s habit_id date e) := by
  by_cases hex : s.any (fun r => r.habit_id == habit_id && r.date == date) = true
  · unfold NoDupKeys
    rw [upsert_log_keys_conflict s habit_id date e hex]
    exact h
  · have hex2 : s.any (fun r => r.habit_id == habit_id && r.date == date) = false :=
      Bool.eq_false_iff.mpr hex
    rw [List.any_eq_false] at hex2
    unfold NoDupKeys upsert_log
    rw [if_neg hex]
    rw [List.map_append, List.nodup_append]
    refine ⟨h, List.nodup_singleton _, ?_⟩
    intro k hk hk2
    simp only [List.map_cons, List.map_nil, List.mem_singleton] at hk2
    subst hk2
    rcases List.mem_map.mp hk with ⟨r, hr, hkey⟩
    have hrk := hex2 r hr
    simp only [Bool.and_eq_true, beq_iff_eq, not_and] at hrk
    exact hrk (congrArg Prod.fst hkey) (congrArg Prod.snd hkey)

lemma save_day_logs_fold_keys (date : Int) :
    ∀ (entries : List (Nat × DayEntry)) (n : Nat) (s : List LogRow), NoDupKeys s →
      NoDupKeys (entries.foldl
        (fun acc kv => (acc.1 + 1, upsert_log acc.2 kv.1 date kv.2)) (n, s)).2
  | [], _, _, h => h
  | kv :: rest, n, s, h =>
    save_day_logs_fold_keys date rest (n + 1) (upsert_log s kv.1 date kv.2)
      (upsert_log_preserves_keys s kv.1 date kv.2 h)

/-- C8: both log-writing operations preserve the at-most-one-row-per
(habit_id, date) invariant, and an upsert hitting an existing key updates in
place — the store's length does not grow. -/
theorem log_writes_preserve_unique_keys (s : List LogRow) (habit_id : Nat)
    (d : Int) (e : DayEntry) (date : Int) (entries : List (Nat × DayEntry))
    (h : NoDupKeys s) :
    NoDupKeys (upsert_log s habit_id d e) ∧
    NoDupKeys (save_day_logs s date entries).2 ∧
    ((∃ r ∈ s, r.habit_id = habit_id ∧ r.date = d) →
      (upsert_log s habit_id d e).length = s.length) := by
  refine ⟨upsert_log_preserves_keys s habit_id d e h,
    save_day_logs_fold_keys date entries 0 s h, ?_⟩
  rintro ⟨r, hr, h1, h2⟩
  have hex : s.any (fun x => x.habit_id == habit_id && x.date == d) = true := by
    rw [List.any_eq_true]
    exact ⟨r, hr, by simp [h1, h2]⟩
  unfold upsert_log
  rw [if_pos hex]
  exact List.length_map _ _

/-- Witness for C8 on a concrete two-row store with a conflicting upsert. -/
theorem log_writes_preserve_unique_keys_witness :
    NoDupKeys (upsert_log [⟨1, 5, false, none⟩, ⟨2, 5, true, none⟩] 1 5
      (DayEntry.statusOnly true)) ∧
    NoDupKeys (save_day_logs [⟨1, 5, false, none⟩, ⟨2, 5, true, none⟩] 6
      [(1, DayEntry.statusOnly true), (3, DayEntry.statusOnly false)]).2 ∧
    (upsert_log [⟨1, 5, false, none⟩, ⟨2, 5, true, none⟩] 1 5
      (DayEntry.statusOnly true)).length =
      [⟨1, 5, false, none⟩, (⟨2, 5, true, none⟩ : LogRow)].length := by
  have h := log_writes_preserve_unique_keys
    [⟨1, 5, false, none⟩, ⟨2, 5, true, none⟩] 1 5 (DayEntry.statusOnly true) 6
    [(1, DayEntry.statusOnly true), (3, DayEntry.statusOnly false)] (by decide)
  exact ⟨h.1, h.2.1, h.2.2 (by decide)⟩

lemma ls_foldl_longest (logs : List LogRow) :
    ∀ (L c : Nat) (p : Option Int),
      (logs.foldl lsStep { longest := L, current := c, prev := p }).longest =
        max L (longestStreakSpec p c logs) := by
  induction logs with
  | nil =>
    intro L c p
    simp [longestStreakSpec]
  | cons log rest ih =>
    intro L c p
    by_cases hs : log.status = true
    · simp only [List.foldl_cons, lsStep, hs, if_pos, longestStreakSpec]
      rw [ih]
      cases p with
      | none => rw [max_assoc]
      | some q =>
        by_cases hd : log.date = q + 1
        · simp only [hd, if_pos]
          rw [max_assoc]
        · simp only [hd, if_neg, ite_false]
          rw [max_assoc]
    · have hs2 : log.status = false := Bool.eq_false_iff.mpr hs
      simp only [List.foldl_cons, lsStep, hs2, Bool.false_eq_true, if_neg,
        ite_false, longestStreakSpec]
      exact ih L 0 (some log.date)

/-- C5: the longest-streak loop of `get_archived_habits_data` computes
exactly the specified maximum-running-streak recursion (a completed day
extends the run only when one day after the previous log record's date, a
`status=false` day resets the run to 0 and re-anchors the previous date), and
on the worked sequence — completed on days 1, 2, 3, a `status=false` log on
day 4, completed on day 5 — it returns 3. -/
theorem archived_longest_streak_spec :
    (∀ logs : List LogRow, longest_streak logs = longestStreakSpec none 0 logs) ∧
    longest_streak [⟨1, 1, true, none⟩, ⟨1, 2, true, none⟩, ⟨1, 3, true, none⟩,
      ⟨1, 4, false, none⟩, ⟨1, 5, true, none⟩] = 3 := by
  constructor
  · intro logs
    unfold longest_streak
    rw [ls_foldl_longest]
    exact Nat.zero_max _
  · decide

instance : IsTotal Int intLe := ⟨fun a b => le_total a b⟩

instance : IsTrans Int intLe := ⟨fun _ _ _ h1 h2 => le_trans h1 h2⟩

lemma streakLoop_eq_spec (today : Int) :
    ∀ dates : List Int, dates.Pairwise (fun a b => b ≤ a) →
      streakLoop today dates = streakSpec dates today := by
  intro dates
  induction dates with
  | nil => intro _; rfl
  | cons d ds ih =>
    intro hp
    rw [List.pairwise_cons] at hp
    obtain ⟨hall, hps⟩ := hp
    by_cases hf : today < d
    · have hd : decide (d ≤ today) = false := by simp [not_le.mpr hf]
      calc streakLoop today (d :: ds) = streakLoop today ds := by
            simp only [streakLoop]
            rw [if_pos hf]
        _ = streakSpec ds today := ih hps
        _ = streakSpec (d :: ds) today := by
            unfold streakSpec
            rw [List.filter_cons, hd]
            simp
    · have hf2 : d ≤ today := not_lt.mp hf
      have hd : decide (d ≤ today) = true := decide_eq_true hf2
      have hrest : ds.filter (fun x => decide (x ≤ today)) = ds := by
        rw [List.filter_eq_self]
        intro x hx
        exact decide_eq_true (le_trans (hall x hx) hf2)
      simp only [streakLoop, streakSpec, List.filter_cons, hd, if_true, hrest]
      rw [if_neg hf]

/-- C3: `get_habit_streak` computes exactly the specified rule — over the
completed dates in descending order, dates strictly after `today` are
dropped, the first remaining date anchors a streak of 1 only when it equals
`today` or `today - 1` (else the streak is 0), and each later date extends
the streak only when exactly one day before the previously accepted date;
with no completed logs, and likewise with only future-dated completions, the
result is `{current_streak := 0, last_completed_date := none}`. -/
theorem current_streak_spec (logs : List LogRow) (habit_id : Nat) (today : Int) :
    get_habit_streak logs habit_id today =
      streakSpec (completedDatesDesc logs habit_id) today ∧
    (logs.filter (fun l => l.habit_id == habit_id && l.status) = [] →
      get_habit_streak logs habit_id today =
        { current_streak := 0, last_completed_date := none }) ∧
    ((∀ l ∈ logs, l.habit_id = habit_id → l.status = true → today < l.date) →
      get_habit_streak logs habit_id today =
        { current_streak := 0, last_completed_date := none }) := by
  have hsorted : (completedDatesDesc logs habit_id).Pairwise (fun a b => b ≤ a) := by
    unfold completedDatesDesc
    rw [List.pairwise_reverse]
    exact List.sorted_insertionSort intLe _
  refine ⟨?_, ?_, ?_⟩
  · show streakLoop today (completedDatesDesc logs habit_id) = _
    exact streakLoop_eq_spec today _ hsorted
  · intro hnil
    show streakLoop today (completedDatesDesc logs habit_id) = _
    unfold completedDatesDesc
    rw [hnil]
    rfl
  · intro hfut
    show streakLoop today (completedDatesDesc logs habit_id) = _
    rw [streakLoop_eq_spec today _ hsorted]
    have hall : ∀ d ∈ completedDatesDesc logs habit_id, today < d := by
      intro d hd
      unfold completedDatesDesc at hd
      rw [List.mem_reverse] at hd
      have hd2 := (List.Perm.mem_iff (List.perm_insertionSort intLe _)).mp hd
      rcases List.mem_map.mp hd2 with ⟨l, hl, rfl⟩
      rw [List.mem_filter] at hl
      obtain ⟨hmem, hcond⟩ := hl
      simp only [Bool.and_eq_true, beq_iff_eq] at hcond
      exact hfut l hmem hcond.1 hcond.2
    unfold streakSpec
    rw [List.filter_eq_nil_iff.mpr (fun d hd => by simp [not_le.mpr (hall d hd)])]

/-- Witness for C3: a single completed log dated after `today` yields streak
0 and no last completed date. -/
theorem current_streak_spec_witness :
    get_habit_streak [⟨1, 10, true, none⟩] 1 5 =
      { current_streak := 0, last_completed_date := none } :=
  (current_streak_spec [⟨1, 10, true, none⟩] 1 5).2.2 (by decide)

/-- C1: every entry of the public dashboard's habit list comes from a habit
of the store with `is_active = true` and `is_public = true`; no inactive or
private habit ever appears, for any store contents. -/
theorem public_dashboard_only_active_public (habits : List Habit) (logs : List LogRow)
    (today : Int) (days : Int) (e : DashboardEntry)
    (he : e ∈ (get_public_dashboard_data habits logs today days).habits) :
    ∃ h ∈ habits, h.is_active = true ∧ h.is_public = true ∧
      e.id = h.id ∧ e.name = h.name := by
  simp only [get_public_dashboard_data] at he
  rcases List.mem_map.mp he with ⟨h, hh, rfl⟩
  simp only [get_active_habits, Bool.false_eq_true, if_neg] at hh
  have hh2 := (List.Perm.mem_iff (List.perm_insertionSort habitOrder _)).mp hh
  rw [List.mem_filter] at hh2
  obtain ⟨hmem, hcond⟩ := hh2
  simp only [Bool.and_eq_true] at hcond
  exact ⟨h, hmem, hcond.1, hcond.2, rfl, rfl⟩

/-- Witness for C1 on a store holding one active public habit next to a
private one and an archived one. -/
theorem public_dashboard_only_active_public_witness :
    ∃ h ∈ [(⟨1, "run", true, true, 0, false, none, "absolute", 700000⟩ : Habit),
        ⟨2, "journal", true, false, 1, false, none, "absolute", 700000⟩,
        ⟨3, "old", false, true, 2, false, none, "absolute", 700000⟩],
      h.is_active = true ∧ h.is_public = true ∧
        (dashboardEntry [] 1000 30 ⟨1, "run", true, true, 0, false, none, "absolute", 700000⟩).id = h.id ∧
        (dashboardEntry [] 1000 30 ⟨1, "run", true, true, 0, false, none, "absolute", 700000⟩).name = h.name :=
  public_dashboard_only_active_public _ [] 1000 30 _ (by
    simp only [get_public_dashboard_data]
    exact List.mem_map_of_mem _ (by decide))

lemma heatmapLoop_fst (f : Int → HeatmapDay) :
    ∀ ds : List Int, (heatmapLoop f ds).1 = ds.map f
  | [] => rfl
  | d :: ds => by
    simp only [heatmapLoop, List.map_cons]
    rw [heatmapLoop_fst f ds]

lemma heatmapLoop_snd (f : Int → HeatmapDay) :
    ∀ ds : List Int, (heatmapLoop f ds).2 =
      (ds.map f).filter (fun e => decide (0 < e.total_count))
  | [] => rfl
  | d :: ds => by
    simp only [heatmapLoop, List.map_cons, List.filter_cons]
    rw [heatmapLoop_snd f ds]
    by_cases h : 0 < (f d).total_count
    · simp [h]
    · simp [h]

lemma heatmapDayData_date (hcd : List (Nat × Int)) (logs : List LogRow)
    (ids : List Nat) (year : Nat) (d : Int) :
    (heatmapDayData hcd logs ids year d).date = d := by
  simp only [heatmapDayData]
  split <;> rfl

lemma heatmapDayData_total (hcd : List (Nat × Int)) (logs : List LogRow)
    (ids : List Nat) (year : Nat) (d : Int) :
    (heatmapDayData hcd logs ids year d).total_count =
      hcd.countP (fun p => decide (p.2 ≤ d)) := by
  simp only [heatmapDayData]
  split
  · next h =>
    rw [List.length_map] at h
    rw [List.countP_eq_length_filter]
    simpa using h.symm
  · next h =>
    show ((hcd.filter _).map _).length = _
    rw [List.length_map, List.countP_eq_length_filter]

lemma heatmapDayData_zero (hcd : List (Nat × Int)) (logs : List LogRow)
    (ids : List Nat) (year : Nat) (d : Int)
    (h : (heatmapDayData hcd logs ids year d).total_count = 0) :
    (heatmapDayData hcd logs ids year d).completion_percentage = 0 ∧
      (heatmapDayData hcd logs ids year d).completed_count = 0 := by
  revert h
  simp only [heatmapDayData]
  split
  · intro _
    exact ⟨rfl, rfl⟩
  · next hc =>
    intro h
    exact absurd h hc

lemma overallStats_count (l : List HeatmapDay) :
    (overallStats l).total_days_tracked = l.length := by
  cases l with
  | nil => rfl
  | cons a rest => rfl

lemma overallStats_avg (l : List HeatmapDay) :
    (overallStats l).average_completion =
      round1 ((l.map (fun e => e.completion_percentage)).sum / (l.length : ℚ)) := by
  cases l with
  | nil => simp [overallStats, round1_zero]
  | cons a rest => rfl

lemma bestDayFold_spec (rest : List HeatmapDay) :
    ∀ first : HeatmapDay,
      (bestDayFold first rest = first ∨ bestDayFold first rest ∈ rest) ∧
      first.completion_percentage ≤ (bestDayFold first rest).completion_percentage ∧
      ∀ e ∈ rest, e.completion_percentage ≤ (bestDayFold first rest).completion_percentage := by
  induction rest with
  | nil =>
    intro first
    exact ⟨Or.inl rfl, le_refl _, fun e he => absurd he (List.not_mem_nil e)⟩
  | cons b bs ih =>
    intro first
    have hstep : bestDayFold first (b :: bs) =
        bestDayFold (if first.completion_percentage < b.completion_percentage then b else first) bs := rfl
    obtain ⟨hmem, hle, hall⟩ :=
      ih (if first.completion_percentage < b.completion_percentage then b else first)
    refine ⟨?_, ?_, ?_⟩
    · rw [hstep]
      rcases hmem with h | h
      · rw [h]
        split
        · exact Or.inr (List.mem_cons_self _ _)
        · exact Or.inl rfl
      · exact Or.inr (List.mem_cons_of_mem _ h)
    · rw [hstep]
      refine le_trans ?_ hle
      split
      · next hlt => exact le_of_lt hlt
      · exact le_refl _
    · intro e he
      rw [hstep]
      rcases List.mem_cons.mp he with rfl | he2
      · refine le_trans ?_ hle
        split
        · exact le_refl _
        · next hnlt => exact not_lt.mp hnlt
      · exact hall e he2

lemma worstDayFold_spec (rest : List HeatmapDay) :
    ∀ first : HeatmapDay,
      (worstDayFold first rest = first ∨ worstDayFold first rest ∈ rest) ∧
      (worstDayFold first rest).completion_percentage ≤ first.completion_percentage ∧
      ∀ e ∈ rest, (worstDayFold first rest).completion_percentage ≤ e.completion_percentage := by
  induction rest with
  | nil =>
    intro first
    exact ⟨Or.inl rfl, le_refl _, fun e he => absurd he (List.not_mem_nil e)⟩
  | cons b bs ih =>
    intro first
    have hstep : worstDayFold first (b :: bs) =
        worstDayFold (if b.completion_percentage < first.completion_percentage then b else first) bs := rfl
    obtain ⟨hmem, hle, hall⟩ :=
      ih (if b.completion_percentage < first.completion_percentage then b else first)
    refine ⟨?_, ?_, ?_⟩
    · rw [hstep]
      rcases hmem with h | h
      · rw [h]
        split
        · exact Or.inr (List.mem_cons_self _ _)
        · exact Or.inl rfl
      · exact Or.inr (List.mem_cons_of_mem _ h)
    · rw [hstep]
      refine le_trans hle ?_
      split
      · next hlt => exact le_of_lt hlt
      · exact le_refl _
    · intro e he
      rw [hstep]
      rcases List.mem_cons.mp he with rfl | he2
      · refine le_trans hle ?_
        split
        · exact le_refl _
        · next hnlt => exact not_lt.mp hnlt
      · exact hall e he2

/-- C2: in the yearly heatmap, day `i` of the year (0-based) carries date
`yearStartOrdinal + i` and a `total_count` equal to the number of qualifying
public habits (created on or before the year's end) whose effective start
date — earliest log date regardless of status when any log exists, otherwise
the `created_at` date — is on or before that day. -/
theorem heatmap_total_count (habits : List Habit) (logs : List LogRow) (year : Nat)
    (i : Nat) (hq : heatmapHabits habits year ≠ []) (hi : i < numDaysInYear year) :
    ((get_yearly_heatmap_data habits logs year).days)[i]?.map
        (fun e => (e.date, e.total_count)) =
      some (yearStartOrdinal year + (i : Int),
        (heatmapHabits habits year).countP
          (fun h => decide (effectiveStart logs h ≤ yearStartOrdinal year + (i : Int)))) := by
  have hne : (heatmapHabits habits year).isEmpty = false := by
    cases hql : heatmapHabits habits year with
    | nil => exact absurd hql hq
    | cons a l => rfl
  have hdates : (yearDates year)[i]? = some (yearStartOrdinal year + (i : Int)) := by
    unfold yearDates
    rw [List.getElem?_map, List.getElem?_range hi]
    rfl
  simp only [get_yearly_heatmap_data, hne, Bool.false_eq_true, if_false]
  rw [heatmapLoop_fst, List.getElem?_map, hdates]
  rw [Option.map_some', Option.map_some']
  rw [heatmapDayData_date, heatmapDayData_total, List.countP_map]
  rfl

/-- Witness for C2: the spec's backdated example — a habit with
`created_at` 2024-06-15 (ordinal 739052) and a completed log backdated to
2024-01-01 (ordinal 738886) counts in `total_count` already on January 1. -/
theorem heatmap_total_count_witness :
    ((get_yearly_heatmap_data
        [⟨1, "run", true, true, 0, false, none, "absolute", 739052⟩]
        [⟨1, 738886, true, none⟩] 2024).days)[0]?.map
        (fun e => (e.date, e.total_count)) = some (738886, 1) :=
  (heatmap_total_count
      [⟨1, "run", true, true, 0, false, none, "absolute", 739052⟩]
      [⟨1, 738886, true, none⟩] 2024 0 (by decide) (by decide)).trans (by decide)

/-- C6: every heatmap day with `total_count = 0` reports percentage 0 and
completed count 0; the tracked list feeding the overall statistics is exactly
the days with `total_count > 0`; `total_days_tracked` is its length, the
average is computed over it alone, and the best (resp. worst) day is a
tracked day whose percentage bounds every tracked day's percentage from above
(resp. below). -/
theorem heatmap_overall_stats (habits : List Habit) (logs : List LogRow) (year : Nat) :
    (∀ e ∈ (get_yearly_heatmap_data habits logs year).days,
        e.total_count = 0 → e.completion_percentage = 0 ∧ e.completed_count = 0) ∧
    (get_yearly_heatmap_data habits logs year).tracked =
      ((get_yearly_heatmap_data habits logs year).days).filter
        (fun e => decide (0 < e.total_count)) ∧
    (get_yearly_heatmap_data habits logs year).overall_stats.total_days_tracked =
      (get_yearly_heatmap_data habits logs year).tracked.length ∧
    (get_yearly_heatmap_data habits logs year).overall_stats.average_completion =
      round1 ((((get_yearly_heatmap_data habits logs year).tracked.map
        (fun e => e.completion_percentage)).sum) /
          ((get_yearly_heatmap_data habits logs year).tracked.length : ℚ)) ∧
    (∀ b ∈ (get_yearly_heatmap_data habits logs year).overall_stats.best_day,
      ∃ e ∈ (get_yearly_heatmap_data habits logs year).tracked,
        e.date = b.1 ∧ e.completion_percentage = b.2 ∧
        ∀ e2 ∈ (get_yearly_heatmap_data habits logs year).tracked,
          e2.completion_percentage ≤ b.2) ∧
    (∀ w ∈ (get_yearly_heatmap_data habits logs year).overall_stats.worst_day,
      ∃ e ∈ (get_yearly_heatmap_data habits logs year).tracked,
        e.date = w.1 ∧ e.completion_percentage = w.2 ∧
        ∀ e2 ∈ (get_yearly_heatmap_data habits logs year).tracked,
          w.2 ≤ e2.completion_percentage) := by
  by_cases hq : (heatmapHabits habits year).isEmpty = true
  · simp only [get_yearly_heatmap_data, hq, if_true]
    refine ⟨?_, rfl, rfl, ?_, ?_, ?_⟩
    · intro e he
      exact absurd he (List.not_mem_nil e)
    · simp [round1_zero]
    · intro b hb
      simp at hb
    · intro w hw
      simp at hw
  · have hq2 : (heatmapHabits habits year).isEmpty = false := Bool.eq_false_iff.mpr hq
    simp only [get_yearly_heatmap_data, hq2, Bool.false_eq_true, if_false]
    refine ⟨?_, ?_, ?_, ?_, ?_, ?_⟩
    · intro e he h0
      rw [heatmapLoop_fst] at he
      rcases List.mem_map.mp he with ⟨d, _, rfl⟩
      exact heatmapDayData_zero _ _ _ _ _ h0
    · rw [heatmapLoop_fst, heatmapLoop_snd]
    · rw [overallStats_count]
    · rw [overallStats_avg]
    · intro b hb
      cases htr : (heatmapLoop (heatmapDayData
          ((heatmapHabits habits year).map (fun h => (h.id, effectiveStart logs h))) logs
          ((heatmapHabits habits year).map (fun h => h.id)) year) (yearDates year)).2 with
      | nil =>
        rw [htr] at hb
        simp [overallStats] at hb
      | cons first rest =>
        rw [htr] at hb
        simp only [overallStats, Option.mem_def, Option.some_inj] at hb
        obtain ⟨hmem, hle, hall⟩ := bestDayFold_spec rest first
        refine ⟨bestDayFold first rest, ?_, ?_, ?_, ?_⟩
        · rcases hmem with h | h
          · rw [h]
            exact List.mem_cons_self _ _
          · exact List.mem_cons_of_mem _ h
        · rw [← hb]
        · rw [← hb]
        · intro e2 he2
          rw [← hb]
          rcases List.mem_cons.mp he2 with rfl | h2
          · exact hle
          · exact hall e2 h2
    · intro w hw
      cases htr : (heatmapLoop (heatmapDayData
          ((heatmapHabits habits year).map (fun h => (h.id, effectiveStart logs h))) logs
          ((heatmapHabits habits year).map (fun h => h.id)) year) (yearDates year)).2 with
      | nil =>
        rw [htr] at hw
        simp [overallStats] at hw
      | cons first rest =>
        rw [htr] at hw
        simp only [overallStats, Option.mem_def, Option.some_inj] at hw
        obtain ⟨hmem, hle, hall⟩ := worstDayFold_spec rest first
        refine ⟨worstDayFold first rest, ?_, ?_, ?_, ?_⟩
        · rcases hmem with h | h
          · rw [h]
            exact List.mem_cons_self _ _
          · exact List.mem_cons_of_mem _ h
        · rw [← hw]
        · rw [← hw]
        · intro e2 he2
          rw [← hw]
          rcases List.mem_cons.mp he2 with rfl | h2
          · exact hle
          · exact hall e2 h2

/-- Witness for C6: with one public habit created 2024-06-15 and no logs,
January 1 2024 is a zero-habit day and renders 0 percent with 0
completions. -/
theorem heatmap_overall_stats_witness :
    (⟨738886, 0, 0, 0⟩ : HeatmapDay).completion_percentage = 0 ∧
    (⟨738886, 0, 0, 0⟩ : HeatmapDay).completed_count = 0 :=
  (heatmap_overall_stats [⟨1, "read", true, true, 0, false, none, "absolute", 739052⟩]
      [] 2024).1 ⟨738886, 0, 0, 0⟩ (by decide) (by decide)
